import Mathlib

/-!
Shallow embedding of the cursor-leak detector of plpgsql_check
(src/cursors_leaks.c) and of the catalog helper
plpgsql_check_is_plpgsql_function (src/catalog.c), with theorems checking
the natural-language specification against the code.

Modelling conventions:
* `SPI_cursor_find` is an oracle `ce : String → Bool` (true when an open
  cursor with that name exists at the moment the hook runs).
* `GetErrorContextStack` is a string parameter `ctx` per hook invocation.
* `ereport` is modelled as emitting a `Report` value; severities below the
  fatal tier return control to the caller, which is the behaviour embedded
  here (reports are accumulated data, execution continues).
* A `FunctionTrace` holds the list of live `CursorTrace` slots
  (`cursors_traces`, whose length is the C field `ncursors`) together with
  the allocated capacity `cursors_size`.
* `LocalTransactionId`, `Oid`, `TransactionId` are `Nat`.
-/

namespace PlpgsqlCheck

/-- C constant MAX_NAMES_PER_STATEMENT from cursors_leaks.c. -/
def MAX_NAMES_PER_STATEMENT : Nat := 20

/-- One tracked cursor slot (struct CursorTrace): the statement id of the
OPEN that produced it (-1 marks a free slot), the recursion/use level at
open time, and the cursor name (NULL marks a free slot). -/
structure CursorTrace where
  stmtid : Int
  rec_level : Nat
  curname : Option String
  deriving Repr, DecidableEq

/-- Hash-table key (struct FunctionTraceKey): routine oid and xmin stamp. -/
structure FunctionTraceKey where
  fn_oid : Nat
  fn_xmin : Nat
  deriving Repr, DecidableEq

/-- Per-routine trace record (struct FunctionTrace); `cursors_traces` lists
the live entries, so the C field ncursors is `cursors_traces.length`. -/
structure FunctionTrace where
  key : FunctionTraceKey
  cursors_size : Nat
  cursors_traces : List CursorTrace
  deriving Repr, DecidableEq

/-- A diagnostic emitted by ereport in cursors_leaks.c. -/
structure Report where
  level : Nat
  errcode : String
  message : String
  detail : String
  deriving Repr, DecidableEq

/-- The error classification used by every leak report. -/
def ERRCODE_INVALID_CURSOR_STATE : String := "invalid cursor state"

/-- The ereport call shared by stmt_end and func_end: configured level,
errcode invalid cursor state, fixed message, context stack as detail. -/
def mkReport (lvl : Nat) (ctx : String) : Report :=
  ⟨lvl, ERRCODE_INVALID_CURSOR_STATE, "cursor is not closed", ctx⟩

/-- Clearing a slot: pfree the name, stmtid := -1, curname := NULL
(rec_level is left as it was). -/
def clear_slot (ct : CursorTrace) : CursorTrace :=
  { ct with stmtid := -1, curname := none }

/-- Body of the scanning loop of stmt_end for one slot: returns the updated
slot, the increment applied to cursors_for_current_stmt, and the reports
emitted while handling this slot. -/
def process_slot (ce : String → Bool) (strict : Bool) (lvl : Nat)
    (ctx : String) (uc : Nat) (sid : Nat) (ct : CursorTrace) :
    CursorTrace × Nat × List Report :=
  match ct.curname with
  | some name =>
    if ct.stmtid = (sid : Int) then
      if ce name then
        if uc = 1 ∧ ¬strict then
          (clear_slot ct, 0, [mkReport lvl ctx])
        else
          (ct, 1, [])
      else
        (clear_slot ct, 0, [])
    else (ct, 0, [])
  | none => (ct, 0, [])

/-- Result of the scanning loop of stmt_end: updated slots, the counter
cursors_for_current_stmt, the first free slot index found, the reports. -/
structure ScanResult where
  slots : List CursorTrace
  cnt : Nat
  free_slot : Option Nat
  reports : List Report
  deriving Repr, DecidableEq

/-- The scanning loop of stmt_end over the slots starting at index i:
process each slot, accumulate the still-open counter and the reports, and
remember the first index whose (possibly just cleared) stmtid is -1. -/
def scan_open (ce : String → Bool) (strict : Bool) (lvl : Nat)
    (ctx : String) (uc : Nat) (sid : Nat) :
    List CursorTrace → Nat → ScanResult
  | [], _ => ⟨[], 0, none, []⟩
  | ct :: rest, i =>
    let step := process_slot ce strict lvl ctx uc sid ct
    let r := scan_open ce strict lvl ctx uc sid rest (i + 1)
    { slots := step.1 :: r.slots,
      cnt := step.2.1 + r.cnt,
      free_slot := if step.1.stmtid = -1 then some i else r.free_slot,
      reports := step.2.2 ++ r.reports }

/-- The OPEN branch of stmt_end: scan the slots, then, if the per-statement
cap is not reached, record the newly opened cursor, reusing the first free
slot when one was found, else appending (growing capacity by 10 when full,
starting at 10). -/
def stmt_end_open (ce : String → Bool) (strict : Bool) (lvl : Nat)
    (ctx : String) (uc : Nat) (sid : Nat) (curname : String)
    (ft : FunctionTrace) : FunctionTrace × List Report :=
  let r := scan_open ce strict lvl ctx uc sid ft.cursors_traces 0
  if r.cnt < MAX_NAMES_PER_STATEMENT then
    let newSlot : CursorTrace := ⟨(sid : Int), uc, some curname⟩
    match r.free_slot with
    | some i => ({ ft with cursors_traces := r.slots.set i newSlot }, r.reports)
    | none =>
      let newSize :=
        if r.slots.length = ft.cursors_size then
          (if 0 < ft.cursors_size then ft.cursors_size + 10 else 10)
        else ft.cursors_size
      ({ ft with cursors_size := newSize,
                 cursors_traces := r.slots ++ [newSlot] }, r.reports)
  else
    ({ ft with cursors_traces := r.slots }, r.reports)

/-- Statement kinds: we only distinguish PLPGSQL_STMT_OPEN from the rest,
as the hook does. -/
inductive StmtCmdType where
  | stmtOpen
  | stmtOther
  deriving Repr, DecidableEq

/-- The fields of PLpgSQL_stmt that stmt_end reads. -/
structure Stmt where
  cmd_type : StmtCmdType
  stmtid : Nat
  deriving Repr, DecidableEq

/-- stmt_end hook at record level (trace record already resolved, non-NULL):
only OPEN statements cause any state change; `curname` is the cursor name
read from the routine variable bound to the OPEN statement. -/
def stmt_end (ce : String → Bool) (strict : Bool) (lvl : Nat) (ctx : String)
    (uc : Nat) (stmt : Stmt) (curname : String) (ft : FunctionTrace) :
    FunctionTrace × List Report :=
  if stmt.cmd_type = StmtCmdType.stmtOpen then
    stmt_end_open ce strict lvl ctx uc stmt.stmtid curname ft
  else (ft, [])

/-- Body of the func_end loop for one slot, as a slot transformer: slots
opened at this use level whose cursor no longer exists are cleared; still
open ones are cleared only in strict mode (after reporting); everything
else is untouched. -/
def fe_step (ce : String → Bool) (strict : Bool) (uc : Nat)
    (ct : CursorTrace) : CursorTrace :=
  match ct.curname with
  | some name =>
    if ct.rec_level = uc then
      if ce name then
        (if strict then clear_slot ct else ct)
      else clear_slot ct
    else ct
  | none => ct

/-- The func_end loop over the slot list: returns updated slots and the
reports emitted (one per still-open slot of this use level, strict mode
only). -/
def func_end_scan (ce : String → Bool) (strict : Bool) (lvl : Nat)
    (ctx : String) (uc : Nat) : List CursorTrace → List CursorTrace × List Report
  | [] => ([], [])
  | ct :: rest =>
    let r := func_end_scan ce strict lvl ctx uc rest
    match ct.curname with
    | some name =>
      if ct.rec_level = uc then
        if ce name then
          (if strict then (clear_slot ct :: r.1, mkReport lvl ctx :: r.2)
           else (ct :: r.1, r.2))
        else (clear_slot ct :: r.1, r.2)
      else (ct :: r.1, r.2)
    | none => (ct :: r.1, r.2)

/-- func_end hook at record level (trace record resolved, lxid current). -/
def func_end (ce : String → Bool) (strict : Bool) (lvl : Nat) (ctx : String)
    (uc : Nat) (ft : FunctionTrace) : FunctionTrace × List Report :=
  let r := func_end_scan ce strict lvl ctx uc ft.cursors_traces
  ({ ft with cursors_traces := r.1 }, r.2)

/-- The static store of cursors_leaks.c: the hash table `traces` (NULL when
not yet created) and the owning local transaction id `traces_lxid`. -/
structure TraceStore where
  traces : Option (List (FunctionTraceKey × FunctionTrace))
  traces_lxid : Nat
  deriving Repr, DecidableEq

/-- The zero-initialized record installed for a first-seen key:
0 cursors, 0 capacity, NULL slot list. -/
def empty_ftrace (key : FunctionTraceKey) : FunctionTrace := ⟨key, 0, []⟩

/-- hash_search lookup part: first entry with the given key. -/
def lookup_trace (tbl : List (FunctionTraceKey × FunctionTrace))
    (key : FunctionTraceKey) : Option FunctionTrace :=
  match tbl with
  | [] => none
  | (k, ft) :: rest => if k = key then some ft else lookup_trace rest key

/-- get_function_trace: recreate the store fresh when it does not exist or
its recorded lxid differs from the current one, then find-or-insert the
record for the key (HASH_ENTER), zero-initializing a fresh entry. -/
def get_function_trace (cur_lxid : Nat) (key : FunctionTraceKey)
    (st : TraceStore) : TraceStore × FunctionTrace :=
  let st1 := if st.traces = none ∨ st.traces_lxid ≠ cur_lxid
             then { traces := some [], traces_lxid := cur_lxid }
             else st
  let tbl := st1.traces.getD []
  match lookup_trace tbl key with
  | some ft => (st1, ft)
  | none =>
    ({ st1 with traces := some ((key, empty_ftrace key) :: tbl) },
     empty_ftrace key)

/-- InvalidOid. -/
def InvalidOid : Nat := 0

/-- The single field of Form_pg_proc read by
plpgsql_check_is_plpgsql_function. -/
structure Form_pg_proc where
  prolang : Nat
  deriving Repr, DecidableEq

/-- plpgsql_check_is_plpgsql_function from catalog.c.
`syscache_proc` is the PROCOID syscache (none = no such procedure);
`plpgsql_language_oid` is the outcome of get_language_oid("plpgsql", false)
were it called (none = the cache lookup fails, which that call surfaces as
an error since missing_ok is false); `cached_language_id` is the global
plpgsql_check_PLpgSQLlanguageId before the call.  Returns the boolean
result together with the updated global, or the raised error. -/
def plpgsql_check_is_plpgsql_function
    (syscache_proc : Nat → Option Form_pg_proc)
    (plpgsql_language_oid : Option Nat)
    (cached_language_id : Nat)
    (foid : Nat) : Except String (Bool × Nat) :=
  match syscache_proc foid with
  | none => Except.ok (false, cached_language_id)
  | some procStruct =>
    match (if cached_language_id ≠ InvalidOid then some cached_language_id
           else plpgsql_language_oid) with
    | none => Except.error "cache lookup failed for language plpgsql"
    | some langId => Except.ok (procStruct.prolang = langId, langId)

/-- First index at or after i of a slot whose stmtid is the free sentinel
-1, mirroring the free_slot bookkeeping of the stmt_end loop. -/
def first_free_from (i : Nat) : List CursorTrace → Option Nat
  | [] => none
  | ct :: rest => if ct.stmtid = -1 then some i else first_free_from (i + 1) rest

/-- A slot that witnesses a leak at OPEN time: tracked (non-null name),
same statement id, and its cursor still exists. -/
def openLeakMatch (ce : String → Bool) (sid : Nat) (ct : CursorTrace) : Bool :=
  match ct.curname with
  | some n => decide (ct.stmtid = (sid : Int)) && ce n
  | none => false

/-- A slot that is still open at teardown for this use level: tracked,
recorded at this use level, and its cursor still exists. -/
def stillOpenMatch (ce : String → Bool) (uc : Nat) (ct : CursorTrace) : Bool :=
  match ct.curname with
  | some n => decide (ct.rec_level = uc) && ce n
  | none => false

/-- The invariant of C9: among live slots, a null name and the -1 statement
id sentinel always come together. -/
def slots_inv (l : List CursorTrace) : Prop :=
  ∀ ct ∈ l, (ct.curname = none ↔ ct.stmtid = -1)

theorem scan_open_slots (ce : String → Bool) (strict : Bool) (lvl : Nat)
    (ctx : String) (uc sid : Nat) (l : List CursorTrace) (i : Nat) :
    (scan_open ce strict lvl ctx uc sid l i).slots
      = l.map (fun ct => (process_slot ce strict lvl ctx uc sid ct).1) := by
  induction l generalizing i with
  | nil => rfl
  | cons ct rest ih => simp [scan_open, ih]

theorem scan_open_reports_strict (ce : String → Bool) (lvl : Nat)
    (ctx : String) (uc sid : Nat) (l : List CursorTrace) (i : Nat) :
    (scan_open ce true lvl ctx uc sid l i).reports = [] := by
  induction l generalizing i with
  | nil => rfl
  | cons ct rest ih =>
    simp only [scan_open, ih]
    cases h : ct.curname with
    | none => simp [process_slot, h]
    | some n =>
      simp only [process_slot, h]
      split
      · split
        · simp
        · simp
      · simp

theorem scan_open_reports_nonstrict_level1 (ce : String → Bool) (lvl : Nat)
    (ctx : String) (sid : Nat) (l : List CursorTrace) (i : Nat) :
    (scan_open ce false lvl ctx 1 sid l i).reports
      = List.replicate (l.countP (openLeakMatch ce sid)) (mkReport lvl ctx) := by
  induction l generalizing i with
  | nil => rfl
  | cons ct rest ih =>
    simp only [scan_open, ih, List.countP_cons]
    cases h : ct.curname with
    | none => simp [process_slot, h, openLeakMatch]
    | some n =>
      simp only [process_slot, h, openLeakMatch]
      by_cases hs : ct.stmtid = (sid : Int)
      · by_cases hc : ce n
        · simp [hs, hc, List.replicate_add, List.replicate_succ]
        · simp [hs, hc]
      · simp [hs]

theorem scan_open_cnt_strict (ce : String → Bool) (lvl : Nat)
    (ctx : String) (uc sid : Nat) (l : List CursorTrace) (i : Nat) :
    (scan_open ce true lvl ctx uc sid l i).cnt
      = l.countP (openLeakMatch ce sid) := by
  induction l generalizing i with
  | nil => rfl
  | cons ct rest ih =>
    simp only [scan_open, ih, List.countP_cons]
    cases h : ct.curname with
    | none => simp [process_slot, h, openLeakMatch]
    | some n =>
      simp only [process_slot, h, openLeakMatch]
      by_cases hs : ct.stmtid = (sid : Int)
      · by_cases hc : ce n
        · simp [hs, hc, Nat.add_comm]
        · simp [hs, hc]
      · simp [hs]

theorem process_slot_cnt (ce : String → Bool) (strict : Bool) (lvl : Nat)
    (ctx : String) (uc sid : Nat) (ct : CursorTrace) :
    (process_slot ce strict lvl ctx uc sid ct).2.1
      = (if ((process_slot ce strict lvl ctx uc sid ct).1.stmtid = (sid : Int)
             ∧ (process_slot ce strict lvl ctx uc sid ct).1.curname.isSome)
         then 1 else 0) := by
  have hsid : ¬((-1 : Int) = (sid : Int)) := by omega
  cases h : ct.curname with
  | none => simp [process_slot, h]
  | some n =>
    by_cases hs : ct.stmtid = (sid : Int)
    · by_cases hc : ce n
      · by_cases hb : uc = 1 ∧ strict = false
        · simp [process_slot, h, hs, hc, hb, clear_slot, hsid]
        · simp [process_slot, h, hs, hc, hb]
      · simp [process_slot, h, hs, hc, clear_slot, hsid]
    · simp [process_slot, h, hs]

theorem scan_open_cnt_still_tracked (ce : String → Bool) (strict : Bool)
    (lvl : Nat) (ctx : String) (uc sid : Nat) (l : List CursorTrace) (i : Nat) :
    (scan_open ce strict lvl ctx uc sid l i).cnt
      = (scan_open ce strict lvl ctx uc sid l i).slots.countP
          (fun ct => decide (ct.stmtid = (sid : Int)) && ct.curname.isSome) := by
  induction l generalizing i with
  | nil => rfl
  | cons ct rest ih =>
    simp only [scan_open, ih, List.countP_cons]
    rw [process_slot_cnt ce strict lvl ctx uc sid ct]
    by_cases hp : ((process_slot ce strict lvl ctx uc sid ct).1.stmtid = (sid : Int)
                   ∧ (process_slot ce strict lvl ctx uc sid ct).1.curname.isSome)
    · simp [hp, hp.1, hp.2, Nat.add_comm]
    · rw [if_neg hp, if_neg]
      · omega
      · simpa using hp

theorem scan_open_free_slot (ce : String → Bool) (strict : Bool) (lvl : Nat)
    (ctx : String) (uc sid : Nat) (l : List CursorTrace) (i : Nat) :
    (scan_open ce strict lvl ctx uc sid l i).free_slot
      = first_free_from i (scan_open ce strict lvl ctx uc sid l i).slots := by
  induction l generalizing i with
  | nil => rfl
  | cons ct rest ih =>
    simp only [scan_open, first_free_from]
    by_cases hf : (process_slot ce strict lvl ctx uc sid ct).1.stmtid = -1
    · simp [hf]
    · simp [hf, ih]

theorem first_free_from_some (l : List CursorTrace) (i j : Nat)
    (h : first_free_from i l = some j) :
    i ≤ j ∧ j - i < l.length
      ∧ (∀ ct, l[j - i]? = some ct → ct.stmtid = -1)
      ∧ (∀ k, k < j - i → ∀ ct, l[k]? = some ct → ct.stmtid ≠ -1) := by
  induction l generalizing i with
  | nil => simp [first_free_from] at h
  | cons ct rest ih =>
    simp only [first_free_from] at h
    by_cases hf : ct.stmtid = -1
    · simp only [hf, if_pos] at h
      obtain rfl : i = j := by simpa using h
      refine ⟨Nat.le_refl _, by simp, ?_, ?_⟩
      · intro ct2 h2
        simp at h2
        simpa [← h2] using hf
      · intro k hk
        omega
    · simp only [hf, if_neg, ite_false] at h
      obtain ⟨h1, h2, h3, h4⟩ := ih (i + 1) h
      refine ⟨by omega, by simp; omega, ?_, ?_⟩
      · intro ct2 hct2
        apply h3
        have : j - i = (j - (i + 1)) + 1 := by omega
        rw [this] at hct2
        simpa using hct2
      · intro k hk ct2 hct2
        match k with
        | 0 =>
          simp at hct2
          simpa [← hct2] using hf
        | k + 1 =>
          apply h4 (k := k) (by omega)
          simpa using hct2

theorem func_end_scan_fst (ce : String → Bool) (strict : Bool) (lvl : Nat)
    (ctx : String) (uc : Nat) (l : List CursorTrace) :
    (func_end_scan ce strict lvl ctx uc l).1 = l.map (fe_step ce strict uc) := by
  induction l with
  | nil => rfl
  | cons ct rest ih =>
    simp only [func_end_scan, List.map_cons, fe_step]
    cases h : ct.curname with
    | none => simpa [h] using ih
    | some n =>
      by_cases hr : ct.rec_level = uc
      · by_cases hc : ce n
        · cases strict <;> simp [h, hr, hc, ih]
        · simp [h, hr, hc, ih]
      · simp [h, hr, ih]

theorem func_end_scan_reports_nonstrict (ce : String → Bool) (lvl : Nat)
    (ctx : String) (uc : Nat) (l : List CursorTrace) :
    (func_end_scan ce false lvl ctx uc l).2 = [] := by
  induction l with
  | nil => rfl
  | cons ct rest ih =>
    simp only [func_end_scan]
    cases h : ct.curname with
    | none => simpa [h] using ih
    | some n =>
      by_cases hr : ct.rec_level = uc
      · by_cases hc : ce n
        · simp [h, hr, hc, ih]
        · simp [h, hr, hc, ih]
      · simp [h, hr, ih]

theorem func_end_scan_reports_strict (ce : String → Bool) (lvl : Nat)
    (ctx : String) (uc : Nat) (l : List CursorTrace) :
    (func_end_scan ce true lvl ctx uc l).2
      = List.replicate (l.countP (stillOpenMatch ce uc)) (mkReport lvl ctx) := by
  induction l with
  | nil => rfl
  | cons ct rest ih =>
    simp only [func_end_scan, List.countP_cons]
    cases h : ct.curname with
    | none => simpa [h, stillOpenMatch] using ih
    | some n =>
      by_cases hr : ct.rec_level = uc
      · by_cases hc : ce n
        · simp [h, hr, hc, ih, stillOpenMatch, List.replicate_succ]
        · simp [h, hr, hc, ih, stillOpenMatch]
      · simp [h, hr, ih, stillOpenMatch]

theorem stmt_end_open_reports (ce : String → Bool) (strict : Bool)
    (lvl : Nat) (ctx : String) (uc sid : Nat) (cn : String)
    (ft : FunctionTrace) :
    (stmt_end_open ce strict lvl ctx uc sid cn ft).2
      = (scan_open ce strict lvl ctx uc sid ft.cursors_traces 0).reports := by
  simp only [stmt_end_open]
  by_cases h : (scan_open ce strict lvl ctx uc sid ft.cursors_traces 0).cnt
      < MAX_NAMES_PER_STATEMENT
  · rw [if_pos h]
    cases hf : (scan_open ce strict lvl ctx uc sid ft.cursors_traces 0).free_slot
      <;> simp [hf]
  · rw [if_neg h]

theorem stmt_end_open_capped (ce : String → Bool) (strict : Bool)
    (lvl : Nat) (ctx : String) (uc sid : Nat) (cn : String)
    (ft : FunctionTrace)
    (h : MAX_NAMES_PER_STATEMENT
          ≤ (scan_open ce strict lvl ctx uc sid ft.cursors_traces 0).cnt) :
    (stmt_end_open ce strict lvl ctx uc sid cn ft).1
      = { ft with cursors_traces
            := (scan_open ce strict lvl ctx uc sid ft.cursors_traces 0).slots } := by
  simp only [stmt_end_open]
  rw [if_neg (by omega)]

theorem stmt_end_open_reuse (ce : String → Bool) (strict : Bool)
    (lvl : Nat) (ctx : String) (uc sid : Nat) (cn : String)
    (ft : FunctionTrace) (j : Nat)
    (h : (scan_open ce strict lvl ctx uc sid ft.cursors_traces 0).cnt
          < MAX_NAMES_PER_STATEMENT)
    (hf : (scan_open ce strict lvl ctx uc sid ft.cursors_traces 0).free_slot
          = some j) :
    (stmt_end_open ce strict lvl ctx uc sid cn ft).1
      = { ft with cursors_traces :=
            ((scan_open ce strict lvl ctx uc sid ft.cursors_traces 0).slots.set
               j ⟨(sid : Int), uc, some cn⟩) } := by
  simp only [stmt_end_open]
  rw [if_pos h]
  simp only [hf]

theorem stmt_end_open_append (ce : String → Bool) (strict : Bool)
    (lvl : Nat) (ctx : String) (uc sid : Nat) (cn : String)
    (ft : FunctionTrace)
    (h : (scan_open ce strict lvl ctx uc sid ft.cursors_traces 0).cnt
          < MAX_NAMES_PER_STATEMENT)
    (hf : (scan_open ce strict lvl ctx uc sid ft.cursors_traces 0).free_slot
          = none) :
    (stmt_end_open ce strict lvl ctx uc sid cn ft).1
      = { ft with
            cursors_size :=
              (if (scan_open ce strict lvl ctx uc sid ft.cursors_traces 0).slots.length
                    = ft.cursors_size then
                 (if 0 < ft.cursors_size then ft.cursors_size + 10 else 10)
               else ft.cursors_size),
            cursors_traces :=
              (scan_open ce strict lvl ctx uc sid ft.cursors_traces 0).slots
                ++ [⟨(sid : Int), uc, some cn⟩] } := by
  simp only [stmt_end_open]
  rw [if_pos h]
  simp only [hf]

theorem process_slot_leak_nonstrict_level1 (ce : String → Bool) (lvl : Nat)
    (ctx : String) (sid : Nat) (ct : CursorTrace)
    (h : openLeakMatch ce sid ct = true) :
    process_slot ce false lvl ctx 1 sid ct
      = (clear_slot ct, 0, [mkReport lvl ctx]) := by
  cases hn : ct.curname with
  | none => simp [openLeakMatch, hn] at h
  | some n =>
    simp only [openLeakMatch, hn, Bool.and_eq_true, decide_eq_true_eq] at h
    simp [process_slot, hn, h.1, h.2]

theorem process_slot_leak_strict (ce : String → Bool) (lvl : Nat)
    (ctx : String) (uc sid : Nat) (ct : CursorTrace)
    (h : openLeakMatch ce sid ct = true) :
    process_slot ce true lvl ctx uc sid ct = (ct, 1, []) := by
  cases hn : ct.curname with
  | none => simp [openLeakMatch, hn] at h
  | some n =>
    simp only [openLeakMatch, hn, Bool.and_eq_true, decide_eq_true_eq] at h
    simp [process_slot, hn, h.1, h.2]

theorem fe_step_nonstrict_keeps_open (ce : String → Bool) (uc : Nat)
    (ct : CursorTrace) (h : stillOpenMatch ce uc ct = true) :
    fe_step ce false uc ct = ct := by
  cases hn : ct.curname with
  | none => simp [stillOpenMatch, hn] at h
  | some n =>
    simp only [stillOpenMatch, hn, Bool.and_eq_true, decide_eq_true_eq] at h
    simp [fe_step, hn, h.1, h.2]

theorem fe_step_strict_clears_open (ce : String → Bool) (uc : Nat)
    (ct : CursorTrace) (h : stillOpenMatch ce uc ct = true) :
    fe_step ce true uc ct = clear_slot ct := by
  cases hn : ct.curname with
  | none => simp [stillOpenMatch, hn] at h
  | some n =>
    simp only [stillOpenMatch, hn, Bool.and_eq_true, decide_eq_true_eq] at h
    simp [fe_step, hn, h.1, h.2]

theorem fe_step_other_level (ce : String → Bool) (strict : Bool) (uc : Nat)
    (ct : CursorTrace) (h : ct.rec_level ≠ uc) :
    fe_step ce strict uc ct = ct := by
  cases hn : ct.curname with
  | none => simp [fe_step, hn]
  | some n => simp [fe_step, hn, h]

theorem stmt_end_eq_open (ce : String → Bool) (strict : Bool) (lvl : Nat)
    (ctx : String) (uc sid : Nat) (cn : String) (ft : FunctionTrace) :
    stmt_end ce strict lvl ctx uc ⟨StmtCmdType.stmtOpen, sid⟩ cn ft
      = stmt_end_open ce strict lvl ctx uc sid cn ft := by
  simp [stmt_end]

/-- C1: with leak detection enabled, strict mode off, and the activation at
use level 1, when an OPEN statement ends and exactly one tracked slot with
the same statement id names a cursor that still exists, exactly one leak
report (errcode invalid cursor state, configured severity) is emitted at
that statement end; the scan replaces each slot by its processed version
and processing the matching slot clears it (stmtid -1, name null); and no
additional report is emitted at routine teardown, which reports nothing in
non-strict mode. -/
theorem C1_nonstrict_level1_single_report (ce : String → Bool) (lvl : Nat)
    (ctx ctx2 : String) (sid : Nat) (cn : String) (ft : FunctionTrace)
    (uc2 : Nat)
    (hcount : ft.cursors_traces.countP (openLeakMatch ce sid) = 1) :
    (stmt_end ce false lvl ctx 1 ⟨StmtCmdType.stmtOpen, sid⟩ cn ft).2
        = [mkReport lvl ctx]
    ∧ (∀ ct ∈ ft.cursors_traces, openLeakMatch ce sid ct = true →
        (process_slot ce false lvl ctx 1 sid ct).1.stmtid = -1
        ∧ (process_slot ce false lvl ctx 1 sid ct).1.curname = none)
    ∧ (scan_open ce false lvl ctx 1 sid ft.cursors_traces 0).slots
        = ft.cursors_traces.map
            (fun ct => (process_slot ce false lvl ctx 1 sid ct).1)
    ∧ (func_end ce false lvl ctx2 uc2
        (stmt_end ce false lvl ctx 1 ⟨StmtCmdType.stmtOpen, sid⟩ cn ft).1).2
        = [] := by
  refine ⟨?_, ?_, ?_, ?_⟩
  · rw [stmt_end_eq_open, stmt_end_open_reports, scan_open_reports_nonstrict_level1, hcount]
    rfl
  · intro ct _ hct
    rw [process_slot_leak_nonstrict_level1 ce lvl ctx sid ct hct]
    exact ⟨rfl, rfl⟩
  · exact scan_open_slots ce false lvl ctx 1 sid ft.cursors_traces 0
  · simp only [func_end]
    rw [func_end_scan_reports_nonstrict]

/-- C1 witness: a record with one tracked slot for statement 5 whose
cursor still exists, re-opened at use level 1 in non-strict mode. -/
theorem C1_witness :
    (([⟨5, 1, some "c"⟩] : List CursorTrace).countP
        (openLeakMatch (fun n => n == "c") 5) = 1)
    ∧ ((stmt_end (fun n => n == "c") false 2 "x" 1
          ⟨StmtCmdType.stmtOpen, 5⟩ "d" ⟨⟨1, 1⟩, 1, [⟨5, 1, some "c"⟩]⟩).2
          = [mkReport 2 "x"]
       ∧ (∀ ct ∈ ([⟨5, 1, some "c"⟩] : List CursorTrace),
            openLeakMatch (fun n => n == "c") 5 ct = true →
            (process_slot (fun n => n == "c") false 2 "x" 1 5 ct).1.stmtid = -1
            ∧ (process_slot (fun n => n == "c") false 2 "x" 1 5 ct).1.curname
                = none)
       ∧ (scan_open (fun n => n == "c") false 2 "x" 1 5
            ([⟨5, 1, some "c"⟩] : List CursorTrace) 0).slots
          = ([⟨5, 1, some "c"⟩] : List CursorTrace).map
              (fun ct => (process_slot (fun n => n == "c") false 2 "x" 1 5 ct).1)
       ∧ (func_end (fun n => n == "c") false 2 "y" 1
            (stmt_end (fun n => n == "c") false 2 "x" 1
              ⟨StmtCmdType.stmtOpen, 5⟩ "d" ⟨⟨1, 1⟩, 1, [⟨5, 1, some "c"⟩]⟩).1).2
          = []) :=
  ⟨by decide,
   C1_nonstrict_level1_single_report (fun n => n == "c") 2 "x" "y" 5 "d"
     ⟨⟨1, 1⟩, 1, [⟨5, 1, some "c"⟩]⟩ 1 (by decide)⟩

/-- C2: with strict mode on, a re-OPEN of a statement whose tracked cursor
still exists emits no report at statement end; the matching slot is kept
unchanged and counted (process_slot returns the slot with increment 1 and
no report, and the scan counter equals the number of such slots); and at
routine teardown, when exactly one slot of this use level still names an
existing cursor, exactly one report with the invalid-cursor-state
classification is emitted there. -/
theorem C2_strict_defers_report_to_teardown (ce ce2 : String → Bool)
    (lvl lvl2 : Nat) (ctx ctx2 : String) (uc uc2 sid : Nat) (cn : String)
    (ft ft2 : FunctionTrace)
    (hcount2 : ft2.cursors_traces.countP (stillOpenMatch ce2 uc2) = 1) :
    (stmt_end ce true lvl ctx uc ⟨StmtCmdType.stmtOpen, sid⟩ cn ft).2 = []
    ∧ (∀ ct ∈ ft.cursors_traces, openLeakMatch ce sid ct = true →
        process_slot ce true lvl ctx uc sid ct = (ct, 1, []))
    ∧ (scan_open ce true lvl ctx uc sid ft.cursors_traces 0).cnt
        = ft.cursors_traces.countP (openLeakMatch ce sid)
    ∧ (func_end ce2 true lvl2 ctx2 uc2 ft2).2 = [mkReport lvl2 ctx2] := by
  refine ⟨?_, ?_, ?_, ?_⟩
  · rw [stmt_end_eq_open, stmt_end_open_reports, scan_open_reports_strict]
  · intro ct _ hct
    exact process_slot_leak_strict ce lvl ctx uc sid ct hct
  · exact scan_open_cnt_strict ce lvl ctx uc sid ft.cursors_traces 0
  · simp only [func_end]
    rw [func_end_scan_reports_strict, hcount2]
    rfl

/-- C2 witness: strict mode; statement 5 re-opened while its previous
cursor exists, and a teardown over one still-open slot of use level 1. -/
theorem C2_witness :
    (([⟨5, 1, some "c"⟩] : List CursorTrace).countP
        (stillOpenMatch (fun n => n == "c") 1) = 1)
    ∧ ((stmt_end (fun n => n == "c") true 2 "x" 1
          ⟨StmtCmdType.stmtOpen, 5⟩ "d" ⟨⟨1, 1⟩, 1, [⟨5, 1, some "c"⟩]⟩).2 = []
       ∧ (∀ ct ∈ ([⟨5, 1, some "c"⟩] : List CursorTrace),
            openLeakMatch (fun n => n == "c") 5 ct = true →
            process_slot (fun n => n == "c") true 2 "x" 1 5 ct = (ct, 1, []))
       ∧ (scan_open (fun n => n == "c") true 2 "x" 1 5
            ([⟨5, 1, some "c"⟩] : List CursorTrace) 0).cnt
          = ([⟨5, 1, some "c"⟩] : List CursorTrace).countP
              (openLeakMatch (fun n => n == "c") 5)
       ∧ (func_end (fun n => n == "c") true 3 "y" 1
            ⟨⟨1, 1⟩, 1, [⟨5, 1, some "c"⟩]⟩).2 = [mkReport 3 "y"]) :=
  ⟨by decide,
   C2_strict_defers_report_to_teardown (fun n => n == "c") (fun n => n == "c")
     2 3 "x" "y" 1 1 5 "d" ⟨⟨1, 1⟩, 1, [⟨5, 1, some "c"⟩]⟩
     ⟨⟨1, 1⟩, 1, [⟨5, 1, some "c"⟩]⟩ (by decide)⟩

/-- C3: under non-strict mode, routine teardown emits no report at all and
leaves every still-open slot of this use level unchanged; in particular,
for a cursor opened exactly once (from an empty record) and never closed
and never reopened, no report is emitted at the OPEN and none at teardown,
so no leak report is ever emitted for it. -/
theorem C3_nonstrict_open_once_never_reported (ce : String → Bool)
    (lvl : Nat) (ctx ctx2 : String) (uc : Nat) (ft : FunctionTrace)
    (sid : Nat) (cn : String) (key : FunctionTraceKey) :
    (func_end ce false lvl ctx uc ft).2 = []
    ∧ (∀ ct ∈ ft.cursors_traces, stillOpenMatch ce uc ct = true →
        fe_step ce false uc ct = ct)
    ∧ (func_end ce false lvl ctx uc ft).1.cursors_traces
        = ft.cursors_traces.map (fe_step ce false uc)
    ∧ (stmt_end ce false lvl ctx 1 ⟨StmtCmdType.stmtOpen, sid⟩ cn
        (empty_ftrace key)).2 = []
    ∧ (func_end ce false lvl ctx2 1
        (stmt_end ce false lvl ctx 1 ⟨StmtCmdType.stmtOpen, sid⟩ cn
          (empty_ftrace key)).1).2 = [] := by
  refine ⟨?_, ?_, ?_, ?_, ?_⟩
  · simp only [func_end]
    rw [func_end_scan_reports_nonstrict]
  · intro ct _ hct
    exact fe_step_nonstrict_keeps_open ce uc ct hct
  · simp only [func_end]
    rw [func_end_scan_fst]
  · rw [stmt_end_eq_open, stmt_end_open_reports]
    rfl
  · simp only [func_end]
    rw [func_end_scan_reports_nonstrict]

/-- C3 witness: one OPEN from an empty record whose cursor stays open,
under non-strict mode. -/
theorem C3_witness :
    (func_end (fun _ => true) false 2 "x" 1 ⟨⟨1, 1⟩, 1, [⟨5, 1, some "c"⟩]⟩).2
        = []
    ∧ (∀ ct ∈ ([⟨5, 1, some "c"⟩] : List CursorTrace),
        stillOpenMatch (fun _ => true) 1 ct = true →
        fe_step (fun _ => true) false 1 ct = ct)
    ∧ (func_end (fun _ => true) false 2 "x" 1
        ⟨⟨1, 1⟩, 1, [⟨5, 1, some "c"⟩]⟩).1.cursors_traces
      = ([⟨5, 1, some "c"⟩] : List CursorTrace).map
          (fe_step (fun _ => true) false 1)
    ∧ (stmt_end (fun _ => true) false 2 "x" 1 ⟨StmtCmdType.stmtOpen, 5⟩ "c"
        (empty_ftrace ⟨1, 1⟩)).2 = []
    ∧ (func_end (fun _ => true) false 2 "y" 1
        (stmt_end (fun _ => true) false 2 "x" 1 ⟨StmtCmdType.stmtOpen, 5⟩ "c"
          (empty_ftrace ⟨1, 1⟩)).1).2 = [] :=
  C3_nonstrict_open_once_never_reported (fun _ => true) 2 "x" "y" 1
    ⟨⟨1, 1⟩, 1, [⟨5, 1, some "c"⟩]⟩ 5 "c" ⟨1, 1⟩

/-- C6: at routine teardown in strict mode, every slot of this use level
whose cursor still exists is reported and cleared (stmtid -1, name null);
the teardown rewrites the slot list pointwise, and the emitted reports are
plain diagnostics (data at the configured severity), one per such slot, so
clearing happens for each reported slot. -/
theorem C6_strict_teardown_clears_after_report (ce : String → Bool)
    (lvl : Nat) (ctx : String) (uc : Nat) (ft : FunctionTrace) :
    (∀ ct ∈ ft.cursors_traces, stillOpenMatch ce uc ct = true →
        fe_step ce true uc ct = clear_slot ct
        ∧ (fe_step ce true uc ct).stmtid = -1
        ∧ (fe_step ce true uc ct).curname = none)
    ∧ (func_end ce true lvl ctx uc ft).1.cursors_traces
        = ft.cursors_traces.map (fe_step ce true uc)
    ∧ (func_end ce true lvl ctx uc ft).2
        = List.replicate (ft.cursors_traces.countP (stillOpenMatch ce uc))
            (mkReport lvl ctx) := by
  refine ⟨?_, ?_, ?_⟩
  · intro ct _ hct
    rw [fe_step_strict_clears_open ce uc ct hct]
    exact ⟨rfl, rfl, rfl⟩
  · simp only [func_end]
    rw [func_end_scan_fst]
  · simp only [func_end]
    rw [func_end_scan_reports_strict]

/-- C6 witness: strict teardown over one still-open slot of use level 1. -/
theorem C6_witness :
    (∀ ct ∈ ([⟨5, 1, some "c"⟩] : List CursorTrace),
        stillOpenMatch (fun _ => true) 1 ct = true →
        fe_step (fun _ => true) true 1 ct = clear_slot ct
        ∧ (fe_step (fun _ => true) true 1 ct).stmtid = -1
        ∧ (fe_step (fun _ => true) true 1 ct).curname = none)
    ∧ (func_end (fun _ => true) true 2 "x" 1
        ⟨⟨1, 1⟩, 1, [⟨5, 1, some "c"⟩]⟩).1.cursors_traces
      = ([⟨5, 1, some "c"⟩] : List CursorTrace).map
          (fe_step (fun _ => true) true 1)
    ∧ (func_end (fun _ => true) true 2 "x" 1 ⟨⟨1, 1⟩, 1, [⟨5, 1, some "c"⟩]⟩).2
      = List.replicate
          (([⟨5, 1, some "c"⟩] : List CursorTrace).countP
            (stillOpenMatch (fun _ => true) 1))
          (mkReport 2 "x") :=
  C6_strict_teardown_clears_after_report (fun _ => true) 2 "x" 1
    ⟨⟨1, 1⟩, 1, [⟨5, 1, some "c"⟩]⟩

/-- C8: routine teardown rewrites the slot list pointwise, and the per-slot
transformer is the identity on every slot whose recorded use level differs
from the current activation's use level, so an inner activation's teardown
never clears an outer activation's slot; moreover all reports concern
still-open slots of the current use level only (none in non-strict mode,
one per still-open current-level slot in strict mode). -/
theorem C8_teardown_touches_only_current_level (ce : String → Bool)
    (strict : Bool) (lvl : Nat) (ctx : String) (uc : Nat)
    (ft : FunctionTrace) :
    (func_end ce strict lvl ctx uc ft).1.cursors_traces
      = ft.cursors_traces.map (fe_step ce strict uc)
    ∧ (∀ ct ∈ ft.cursors_traces, ct.rec_level ≠ uc →
        fe_step ce strict uc ct = ct)
    ∧ (func_end ce strict lvl ctx uc ft).2
      = (if strict
         then List.replicate
                (ft.cursors_traces.countP (stillOpenMatch ce uc))
                (mkReport lvl ctx)
         else []) := by
  refine ⟨?_, ?_, ?_⟩
  · simp only [func_end]
    rw [func_end_scan_fst]
  · intro ct _ hct
    exact fe_step_other_level ce strict uc ct hct
  · cases strict with
    | false => simp [func_end, func_end_scan_reports_nonstrict]
    | true => simp [func_end, func_end_scan_reports_strict]

/-- C8 witness: a record holding slots at use levels 1 and 2; teardown of
the use-level-2 activation leaves the level-1 slot untouched. -/
theorem C8_witness :
    (func_end (fun _ => true) true 2 "x" 2
        ⟨⟨1, 1⟩, 2, [⟨5, 1, some "c"⟩, ⟨5, 2, some "d"⟩]⟩).1.cursors_traces
      = ([⟨5, 1, some "c"⟩, ⟨5, 2, some "d"⟩] : List CursorTrace).map
          (fe_step (fun _ => true) true 2)
    ∧ (∀ ct ∈ ([⟨5, 1, some "c"⟩, ⟨5, 2, some "d"⟩] : List CursorTrace),
        ct.rec_level ≠ 2 → fe_step (fun _ => true) true 2 ct = ct)
    ∧ (func_end (fun _ => true) true 2 "x" 2
        ⟨⟨1, 1⟩, 2, [⟨5, 1, some "c"⟩, ⟨5, 2, some "d"⟩]⟩).2
      = (if true
         then List.replicate
                (([⟨5, 1, some "c"⟩, ⟨5, 2, some "d"⟩] : List CursorTrace).countP
                  (stillOpenMatch (fun _ => true) 2))
                (mkReport 2 "x")
         else []) :=
  C8_teardown_touches_only_current_level (fun _ => true) true 2 "x" 2
    ⟨⟨1, 1⟩, 2, [⟨5, 1, some "c"⟩, ⟨5, 2, some "d"⟩]⟩

/-- Shorthand: the stmt_end scan applied to a record's slot list from
index 0, as stmt_end does. -/
def ft_scan (ce : String → Bool) (strict : Bool) (lvl : Nat) (ctx : String)
    (uc sid : Nat) (ft : FunctionTrace) : ScanResult :=
  scan_open ce strict lvl ctx uc sid ft.cursors_traces 0

/-- C5: after the scan, the counter cursors_for_current_stmt equals the
number of still-tracked slots for this statement id; when it has reached
MAX_NAMES_PER_STATEMENT (20) the record keeps exactly the scanned slots
(the newly opened cursor is not tracked and the capacity is unchanged);
when it is strictly below 20 a slot holding the new cursor is recorded. -/
theorem C5_per_statement_cap (ce : String → Bool) (strict : Bool)
    (lvl : Nat) (ctx : String) (uc sid : Nat) (cn : String)
    (ft : FunctionTrace) :
    (ft_scan ce strict lvl ctx uc sid ft).cnt
      = (ft_scan ce strict lvl ctx uc sid ft).slots.countP
          (fun ct => decide (ct.stmtid = (sid : Int)) && ct.curname.isSome)
    ∧ (MAX_NAMES_PER_STATEMENT ≤ (ft_scan ce strict lvl ctx uc sid ft).cnt →
        (stmt_end ce strict lvl ctx uc ⟨StmtCmdType.stmtOpen, sid⟩ cn ft).1
          = { ft with cursors_traces :=
                (ft_scan ce strict lvl ctx uc sid ft).slots })
    ∧ ((ft_scan ce strict lvl ctx uc sid ft).cnt < MAX_NAMES_PER_STATEMENT →
        ∃ i : Nat, (stmt_end ce strict lvl ctx uc ⟨StmtCmdType.stmtOpen,
                sid⟩ cn ft).1.cursors_traces[i]?
              = some ⟨(sid : Int), uc, some cn⟩) := by
  unfold ft_scan
  refine ⟨?_, ?_, ?_⟩
  · exact scan_open_cnt_still_tracked ce strict lvl ctx uc sid
      ft.cursors_traces 0
  · intro h
    rw [stmt_end_eq_open]
    exact stmt_end_open_capped ce strict lvl ctx uc sid cn ft h
  · intro h
    rw [stmt_end_eq_open]
    cases hf : (scan_open ce strict lvl ctx uc sid ft.cursors_traces 0).free_slot
      with
    | some j =>
      rw [stmt_end_open_reuse ce strict lvl ctx uc sid cn ft j h hf]
      have hfirst := hf
      rw [scan_open_free_slot] at hfirst
      obtain ⟨-, hlen, -, -⟩ := first_free_from_some _ 0 j hfirst
      refine ⟨j, ?_⟩
      simp [List.getElem?_set, show j < (scan_open ce strict lvl ctx uc sid
        ft.cursors_traces 0).slots.length by omega]
    | none =>
      rw [stmt_end_open_append ce strict lvl ctx uc sid cn ft h hf]
      refine ⟨(scan_open ce strict lvl ctx uc sid
        ft.cursors_traces 0).slots.length, ?_⟩
      exact List.getElem?_concat_length _ _

/-- C5 witness: one still-tracked slot (count 1, below the cap), so the
new cursor is recorded. -/
theorem C5_witness :
    (ft_scan (fun _ => true) true 2 "x" 1 5
        ⟨⟨1, 1⟩, 1, [⟨5, 1, some "c"⟩]⟩).cnt
      = (ft_scan (fun _ => true) true 2 "x" 1 5
          ⟨⟨1, 1⟩, 1, [⟨5, 1, some "c"⟩]⟩).slots.countP
          (fun ct => decide (ct.stmtid = ((5 : Nat) : Int))
            && ct.curname.isSome)
    ∧ (MAX_NAMES_PER_STATEMENT
          ≤ (ft_scan (fun _ => true) true 2 "x" 1 5
              ⟨⟨1, 1⟩, 1, [⟨5, 1, some "c"⟩]⟩).cnt →
        (stmt_end (fun _ => true) true 2 "x" 1 ⟨StmtCmdType.stmtOpen, 5⟩ "d"
            ⟨⟨1, 1⟩, 1, [⟨5, 1, some "c"⟩]⟩).1
          = { (⟨⟨1, 1⟩, 1, [⟨5, 1, some "c"⟩]⟩ : FunctionTrace) with
                cursors_traces :=
                  (ft_scan (fun _ => true) true 2 "x" 1 5
                    ⟨⟨1, 1⟩, 1, [⟨5, 1, some "c"⟩]⟩).slots })
    ∧ ((ft_scan (fun _ => true) true 2 "x" 1 5
          ⟨⟨1, 1⟩, 1, [⟨5, 1, some "c"⟩]⟩).cnt < MAX_NAMES_PER_STATEMENT →
        ∃ i : Nat, (stmt_end (fun _ => true) true 2 "x" 1
                ⟨StmtCmdType.stmtOpen, 5⟩ "d"
                ⟨⟨1, 1⟩, 1, [⟨5, 1, some "c"⟩]⟩).1.cursors_traces[i]?
              = some ⟨((5 : Nat) : Int), 1, some "d"⟩) :=
  C5_per_statement_cap (fun _ => true) true 2 "x" 1 5 "d"
    ⟨⟨1, 1⟩, 1, [⟨5, 1, some "c"⟩]⟩

/-- C7: the free-slot index remembered by the scan is the first index of
the scanned slot list whose stmtid is -1 (it is free, and every earlier
slot is not); below the cap, when such an index exists the new slot is
written there by set, and otherwise the new slot is appended with the
capacity growing by exactly 10 when the list is full, starting from 10 on
the first allocation. -/
theorem C7_first_free_slot_reuse_else_grow_by_10 (ce : String → Bool)
    (strict : Bool) (lvl : Nat) (ctx : String) (uc sid : Nat) (cn : String)
    (ft : FunctionTrace) :
    (ft_scan ce strict lvl ctx uc sid ft).free_slot
      = first_free_from 0 (ft_scan ce strict lvl ctx uc sid ft).slots
    ∧ (∀ j, (ft_scan ce strict lvl ctx uc sid ft).free_slot = some j →
        j < (ft_scan ce strict lvl ctx uc sid ft).slots.length
        ∧ (∀ ct, (ft_scan ce strict lvl ctx uc sid ft).slots[j]? = some ct →
            ct.stmtid = -1)
        ∧ (∀ k, k < j →
            ∀ ct, (ft_scan ce strict lvl ctx uc sid ft).slots[k]? = some ct →
              ct.stmtid ≠ -1))
    ∧ ((ft_scan ce strict lvl ctx uc sid ft).cnt < MAX_NAMES_PER_STATEMENT →
        (∀ j, (ft_scan ce strict lvl ctx uc sid ft).free_slot = some j →
          (stmt_end ce strict lvl ctx uc ⟨StmtCmdType.stmtOpen, sid⟩
              cn ft).1
            = { ft with cursors_traces :=
                  ((ft_scan ce strict lvl ctx uc sid ft).slots.set j
                    ⟨(sid : Int), uc, some cn⟩) })
        ∧ ((ft_scan ce strict lvl ctx uc sid ft).free_slot = none →
          (stmt_end ce strict lvl ctx uc ⟨StmtCmdType.stmtOpen, sid⟩
              cn ft).1
            = { ft with
                  cursors_size :=
                    (if (ft_scan ce strict lvl ctx uc sid ft).slots.length
                          = ft.cursors_size then
                       (if 0 < ft.cursors_size then ft.cursors_size + 10
                        else 10)
                     else ft.cursors_size),
                  cursors_traces :=
                    (ft_scan ce strict lvl ctx uc sid ft).slots
                      ++ [⟨(sid : Int), uc, some cn⟩] })) := by
  unfold ft_scan
  refine ⟨?_, ?_, ?_⟩
  · exact scan_open_free_slot ce strict lvl ctx uc sid ft.cursors_traces 0
  · intro j hf
    have hfirst := hf
    rw [scan_open_free_slot] at hfirst
    obtain ⟨-, hlen, hat, hbefore⟩ := first_free_from_some _ 0 j hfirst
    refine ⟨by omega, ?_, ?_⟩
    · intro ct hct
      exact hat ct hct
    · intro k hk ct hct
      exact hbefore k (by omega) ct hct
  · intro h
    refine ⟨?_, ?_⟩
    · intro j hf
      rw [stmt_end_eq_open]
      exact stmt_end_open_reuse ce strict lvl ctx uc sid cn ft j h hf
    · intro hf
      rw [stmt_end_eq_open]
      exact stmt_end_open_append ce strict lvl ctx uc sid cn ft h hf

/-- C7 witness: a record whose first slot is free and second is live; the
free slot is found at index 0 and reused for the new cursor. -/
theorem C7_witness :
    (ft_scan (fun _ => true) true 2 "x" 1 5
        ⟨⟨1, 1⟩, 10, [⟨-1, 1, none⟩, ⟨7, 1, some "c"⟩]⟩).free_slot
      = first_free_from 0
          (ft_scan (fun _ => true) true 2 "x" 1 5
            ⟨⟨1, 1⟩, 10, [⟨-1, 1, none⟩, ⟨7, 1, some "c"⟩]⟩).slots
    ∧ (∀ j, (ft_scan (fun _ => true) true 2 "x" 1 5
          ⟨⟨1, 1⟩, 10, [⟨-1, 1, none⟩, ⟨7, 1, some "c"⟩]⟩).free_slot = some j →
        j < (ft_scan (fun _ => true) true 2 "x" 1 5
              ⟨⟨1, 1⟩, 10, [⟨-1, 1, none⟩, ⟨7, 1, some "c"⟩]⟩).slots.length
        ∧ (∀ ct, (ft_scan (fun _ => true) true 2 "x" 1 5
              ⟨⟨1, 1⟩, 10, [⟨-1, 1, none⟩, ⟨7, 1, some "c"⟩]⟩).slots[j]?
              = some ct → ct.stmtid = -1)
        ∧ (∀ k, k < j →
            ∀ ct, (ft_scan (fun _ => true) true 2 "x" 1 5
              ⟨⟨1, 1⟩, 10, [⟨-1, 1, none⟩, ⟨7, 1, some "c"⟩]⟩).slots[k]?
              = some ct → ct.stmtid ≠ -1))
    ∧ ((ft_scan (fun _ => true) true 2 "x" 1 5
          ⟨⟨1, 1⟩, 10, [⟨-1, 1, none⟩, ⟨7, 1, some "c"⟩]⟩).cnt
          < MAX_NAMES_PER_STATEMENT →
        (∀ j, (ft_scan (fun _ => true) true 2 "x" 1 5
            ⟨⟨1, 1⟩, 10, [⟨-1, 1, none⟩, ⟨7, 1, some "c"⟩]⟩).free_slot
            = some j →
          (stmt_end (fun _ => true) true 2 "x" 1 ⟨StmtCmdType.stmtOpen, 5⟩
              "d" ⟨⟨1, 1⟩, 10, [⟨-1, 1, none⟩, ⟨7, 1, some "c"⟩]⟩).1
            = { (⟨⟨1, 1⟩, 10, [⟨-1, 1, none⟩, ⟨7, 1, some "c"⟩]⟩ :
                  FunctionTrace) with
                  cursors_traces :=
                    ((ft_scan (fun _ => true) true 2 "x" 1 5
                      ⟨⟨1, 1⟩, 10, [⟨-1, 1, none⟩, ⟨7, 1, some "c"⟩]⟩).slots.set
                      j ⟨((5 : Nat) : Int), 1, some "d"⟩) })
        ∧ ((ft_scan (fun _ => true) true 2 "x" 1 5
              ⟨⟨1, 1⟩, 10, [⟨-1, 1, none⟩, ⟨7, 1, some "c"⟩]⟩).free_slot
              = none →
          (stmt_end (fun _ => true) true 2 "x" 1 ⟨StmtCmdType.stmtOpen, 5⟩
              "d" ⟨⟨1, 1⟩, 10, [⟨-1, 1, none⟩, ⟨7, 1, some "c"⟩]⟩).1
            = { (⟨⟨1, 1⟩, 10, [⟨-1, 1, none⟩, ⟨7, 1, some "c"⟩]⟩ :
                  FunctionTrace) with
                  cursors_size :=
                    (if (ft_scan (fun _ => true) true 2 "x" 1 5
                          ⟨⟨1, 1⟩, 10,
                            [⟨-1, 1, none⟩, ⟨7, 1, some "c"⟩]⟩).slots.length
                          = 10 then
                       (if 0 < 10 then 10 + 10 else 10)
                     else 10),
                  cursors_traces :=
                    (ft_scan (fun _ => true) true 2 "x" 1 5
                      ⟨⟨1, 1⟩, 10, [⟨-1, 1, none⟩, ⟨7, 1, some "c"⟩]⟩).slots
                      ++ [⟨((5 : Nat) : Int), 1, some "d"⟩] })) :=
  C7_first_free_slot_reuse_else_grow_by_10 (fun _ => true) true 2 "x" 1 5 "d"
    ⟨⟨1, 1⟩, 10, [⟨-1, 1, none⟩, ⟨7, 1, some "c"⟩]⟩

theorem process_slot_inv (ce : String → Bool) (strict : Bool) (lvl : Nat)
    (ctx : String) (uc sid : Nat) (ct : CursorTrace)
    (h : ct.curname = none ↔ ct.stmtid = -1) :
    (process_slot ce strict lvl ctx uc sid ct).1.curname = none
      ↔ (process_slot ce strict lvl ctx uc sid ct).1.stmtid = -1 := by
  cases hn : ct.curname with
  | none =>
    simp only [process_slot, hn]
    exact ⟨fun _ => h.mp hn, fun _ => trivial⟩
  | some n =>
    by_cases hs : ct.stmtid = (sid : Int)
    · by_cases hc : ce n
      · by_cases hb : uc = 1 ∧ strict = false
        · simp [process_slot, hn, hs, hc, hb, clear_slot]
        · simp only [process_slot, hn]
          rw [if_pos hs, if_pos hc, if_neg (by simpa using hb)]
          exact h
      · simp [process_slot, hn, hs, hc, clear_slot]
    · simp only [process_slot, hn]
      rw [if_neg hs]
      exact h

theorem fe_step_inv (ce : String → Bool) (strict : Bool) (uc : Nat)
    (ct : CursorTrace) (h : ct.curname = none ↔ ct.stmtid = -1) :
    (fe_step ce strict uc ct).curname = none
      ↔ (fe_step ce strict uc ct).stmtid = -1 := by
  cases hn : ct.curname with
  | none =>
    simp only [fe_step, hn]
    exact ⟨fun _ => h.mp hn, fun _ => trivial⟩
  | some n =>
    by_cases hr : ct.rec_level = uc
    · by_cases hc : ce n
      · cases strict with
        | false =>
          simp only [fe_step, hn]
          rw [if_pos hr, if_pos hc, if_neg (by simp)]
          exact h
        | true => simp [fe_step, hn, hr, hc, clear_slot]
      · simp [fe_step, hn, hr, hc, clear_slot]
    · simp only [fe_step, hn]
      rw [if_neg hr]
      exact h

theorem slots_inv_map_process (ce : String → Bool) (strict : Bool)
    (lvl : Nat) (ctx : String) (uc sid : Nat) (l : List CursorTrace)
    (h : slots_inv l) :
    slots_inv (l.map (fun ct => (process_slot ce strict lvl ctx uc sid ct).1))
    := by
  intro ct hct
  obtain ⟨ct0, hct0, rfl⟩ := List.mem_map.1 hct
  exact process_slot_inv ce strict lvl ctx uc sid ct0 (h ct0 hct0)

theorem new_slot_inv (uc sid : Nat) (cn : String) :
    ((⟨(sid : Int), uc, some cn⟩ : CursorTrace).curname = none
      ↔ (⟨(sid : Int), uc, some cn⟩ : CursorTrace).stmtid = -1) := by
  simp

/-- C9: among live slots, a null name and the -1 statement id come only
together; the invariant is preserved by the OPEN branch of stmt_end
(cleared slots set both fields, the newly recorded slot has a non-null
name and a non-negative statement id) and by routine teardown, and it
holds for the zero-initialized record, so the free-slot test on the
statement id and the teardown test on the name always agree. -/
theorem C9_name_null_iff_stmtid_free (ce : String → Bool) (strict : Bool)
    (lvl : Nat) (ctx : String) (uc sid : Nat) (cn : String)
    (ft : FunctionTrace) (key : FunctionTraceKey)
    (h : slots_inv ft.cursors_traces) :
    slots_inv (stmt_end ce strict lvl ctx uc ⟨StmtCmdType.stmtOpen, sid⟩
        cn ft).1.cursors_traces
    ∧ slots_inv (func_end ce strict lvl ctx uc ft).1.cursors_traces
    ∧ slots_inv (empty_ftrace key).cursors_traces := by
  have hmap : slots_inv (scan_open ce strict lvl ctx uc sid
      ft.cursors_traces 0).slots := by
    rw [scan_open_slots]
    exact slots_inv_map_process ce strict lvl ctx uc sid ft.cursors_traces h
  refine ⟨?_, ?_, ?_⟩
  · rw [stmt_end_eq_open]
    by_cases hcap : (scan_open ce strict lvl ctx uc sid
        ft.cursors_traces 0).cnt < MAX_NAMES_PER_STATEMENT
    · cases hf : (scan_open ce strict lvl ctx uc sid
          ft.cursors_traces 0).free_slot with
      | some j =>
        rw [stmt_end_open_reuse ce strict lvl ctx uc sid cn ft j hcap hf]
        intro ct hct
        rcases List.mem_or_eq_of_mem_set hct with hmem | rfl
        · exact hmap ct hmem
        · exact new_slot_inv uc sid cn
      | none =>
        rw [stmt_end_open_append ce strict lvl ctx uc sid cn ft hcap hf]
        intro ct hct
        rcases List.mem_append.1 hct with hmem | hmem
        · exact hmap ct hmem
        · rw [List.mem_singleton.1 hmem]
          exact new_slot_inv uc sid cn
    · rw [stmt_end_open_capped ce strict lvl ctx uc sid cn ft (by omega)]
      exact hmap
  · simp only [func_end]
    rw [func_end_scan_fst]
    intro ct hct
    obtain ⟨ct0, hct0, rfl⟩ := List.mem_map.1 hct
    exact fe_step_inv ce strict uc ct0 (h ct0 hct0)
  · intro ct hct
    simp [empty_ftrace] at hct

/-- C9 witness: a record with one live and one free slot satisfying the
invariant; both hooks preserve it. -/
theorem C9_witness :
    slots_inv ([⟨5, 1, some "c"⟩, ⟨-1, 1, none⟩] : List CursorTrace)
    ∧ (slots_inv (stmt_end (fun _ => true) true 2 "x" 1
          ⟨StmtCmdType.stmtOpen, 5⟩ "d"
          ⟨⟨1, 1⟩, 10, [⟨5, 1, some "c"⟩, ⟨-1, 1, none⟩]⟩).1.cursors_traces
       ∧ slots_inv (func_end (fun _ => true) true 2 "x" 1
          ⟨⟨1, 1⟩, 10, [⟨5, 1, some "c"⟩, ⟨-1, 1, none⟩]⟩).1.cursors_traces
       ∧ slots_inv (empty_ftrace ⟨1, 1⟩).cursors_traces) :=
  ⟨by unfold slots_inv; decide,
   C9_name_null_iff_stmtid_free (fun _ => true) true 2 "x" 1 5 "d"
     ⟨⟨1, 1⟩, 10, [⟨5, 1, some "c"⟩, ⟨-1, 1, none⟩]⟩ ⟨1, 1⟩
     (by unfold slots_inv; decide)⟩

/-- C4: get_function_trace recreates the store fresh (recording the
current lxid) whenever no table exists or the recorded lxid differs from
the current one, and inserts the zero-initialized record for a first-seen
key; in particular, under an lxid mismatch the returned record is always
the zero record, so state recorded in one transaction is never seen by an
activation in a different transaction. -/
theorem C4_transaction_scoped_store (st : TraceStore) (cur : Nat)
    (key : FunctionTraceKey) :
    ((st.traces = none ∨ st.traces_lxid ≠ cur) →
        (get_function_trace cur key st).1.traces_lxid = cur
        ∧ (get_function_trace cur key st).1.traces
            = some [(key, empty_ftrace key)]
        ∧ (get_function_trace cur key st).2 = empty_ftrace key)
    ∧ (∀ tbl, st.traces = some tbl → st.traces_lxid = cur →
        lookup_trace tbl key = none →
        (get_function_trace cur key st).2 = empty_ftrace key
        ∧ (get_function_trace cur key st).1.traces
            = some ((key, empty_ftrace key) :: tbl))
    ∧ (st.traces_lxid ≠ cur →
        (get_function_trace cur key st).2 = empty_ftrace key) := by
  refine ⟨?_, ?_, ?_⟩
  · intro hfresh
    simp only [get_function_trace, if_pos hfresh]
    exact ⟨rfl, rfl, rfl⟩
  · intro tbl htbl hlx hlook
    simp [get_function_trace, htbl, hlx, hlook]
  · intro hne
    simp only [get_function_trace, if_pos (Or.inr hne)]
    rfl

/-- C4 witness: a store owned by lxid 6 queried in lxid 7 yields a fresh
store and the zero record; a valid store without the key inserts the zero
record. -/
theorem C4_witness :
    (((⟨some [(⟨9, 9⟩, ⟨⟨9, 9⟩, 10, [⟨5, 1, some "c"⟩]⟩)], 6⟩ :
          TraceStore).traces = none ∨
       (⟨some [(⟨9, 9⟩, ⟨⟨9, 9⟩, 10, [⟨5, 1, some "c"⟩]⟩)], 6⟩ :
          TraceStore).traces_lxid ≠ 7) →
        (get_function_trace 7 ⟨1, 2⟩
          ⟨some [(⟨9, 9⟩, ⟨⟨9, 9⟩, 10, [⟨5, 1, some "c"⟩]⟩)], 6⟩).1.traces_lxid
          = 7
        ∧ (get_function_trace 7 ⟨1, 2⟩
            ⟨some [(⟨9, 9⟩, ⟨⟨9, 9⟩, 10, [⟨5, 1, some "c"⟩]⟩)], 6⟩).1.traces
            = some [(⟨1, 2⟩, empty_ftrace ⟨1, 2⟩)]
        ∧ (get_function_trace 7 ⟨1, 2⟩
            ⟨some [(⟨9, 9⟩, ⟨⟨9, 9⟩, 10, [⟨5, 1, some "c"⟩]⟩)], 6⟩).2
            = empty_ftrace ⟨1, 2⟩)
    ∧ (∀ tbl,
        (⟨some [(⟨9, 9⟩, ⟨⟨9, 9⟩, 10, [⟨5, 1, some "c"⟩]⟩)], 6⟩ :
          TraceStore).traces = some tbl →
        (⟨some [(⟨9, 9⟩, ⟨⟨9, 9⟩, 10, [⟨5, 1, some "c"⟩]⟩)], 6⟩ :
          TraceStore).traces_lxid = 7 →
        lookup_trace tbl ⟨1, 2⟩ = none →
        (get_function_trace 7 ⟨1, 2⟩
          ⟨some [(⟨9, 9⟩, ⟨⟨9, 9⟩, 10, [⟨5, 1, some "c"⟩]⟩)], 6⟩).2
          = empty_ftrace ⟨1, 2⟩
        ∧ (get_function_trace 7 ⟨1, 2⟩
            ⟨some [(⟨9, 9⟩, ⟨⟨9, 9⟩, 10, [⟨5, 1, some "c"⟩]⟩)], 6⟩).1.traces
            = some ((⟨1, 2⟩, empty_ftrace ⟨1, 2⟩) :: tbl))
    ∧ ((⟨some [(⟨9, 9⟩, ⟨⟨9, 9⟩, 10, [⟨5, 1, some "c"⟩]⟩)], 6⟩ :
          TraceStore).traces_lxid ≠ 7 →
        (get_function_trace 7 ⟨1, 2⟩
          ⟨some [(⟨9, 9⟩, ⟨⟨9, 9⟩, 10, [⟨5, 1, some "c"⟩]⟩)], 6⟩).2
          = empty_ftrace ⟨1, 2⟩) :=
  C4_transaction_scoped_store
    ⟨some [(⟨9, 9⟩, ⟨⟨9, 9⟩, 10, [⟨5, 1, some "c"⟩]⟩)], 6⟩ 7 ⟨1, 2⟩

/-- C10: plpgsql_check_is_plpgsql_function returns false, not an error,
when no procedure with the given oid exists; an error arises only when the
procedure exists, the cached language id is invalid, and the language
cache lookup itself fails. -/
theorem C10_missing_proc_returns_false
    (syscache_proc : Nat → Option Form_pg_proc) (plo : Option Nat)
    (cached foid : Nat) :
    (syscache_proc foid = none →
        plpgsql_check_is_plpgsql_function syscache_proc plo cached foid
          = Except.ok (false, cached))
    ∧ (∀ e, plpgsql_check_is_plpgsql_function syscache_proc plo cached foid
          = Except.error e →
        (syscache_proc foid).isSome ∧ cached = InvalidOid ∧ plo = none) := by
  refine ⟨?_, ?_⟩
  · intro hnone
    simp [plpgsql_check_is_plpgsql_function, hnone]
  · intro e herr
    cases hp : syscache_proc foid with
    | none =>
      rw [plpgsql_check_is_plpgsql_function, hp] at herr
      simp at herr
    | some procStruct =>
      rw [plpgsql_check_is_plpgsql_function, hp] at herr
      by_cases hc : cached ≠ InvalidOid
      · rw [if_pos hc] at herr
        simp at herr
      · rw [if_neg hc] at herr
        cases hl : plo with
        | none => simp [hp, hl, show cached = InvalidOid by omega]
        | some l =>
          rw [hl] at herr
          simp at herr

/-- C10 witness: a missing procedure oid returns ok false even when the
language lookup would fail. -/
theorem C10_witness :
    ((fun _ => (none : Option Form_pg_proc)) 42 = none →
        plpgsql_check_is_plpgsql_function (fun _ => none) none 0 42
          = Except.ok (false, 0))
    ∧ (∀ e, plpgsql_check_is_plpgsql_function
          (fun _ => (none : Option Form_pg_proc)) none 0 42
          = Except.error e →
        ((fun _ => (none : Option Form_pg_proc)) 42).isSome
        ∧ 0 = InvalidOid ∧ (none : Option Nat) = none) :=
  C10_missing_proc_returns_false (fun _ => none) none 0 42

end PlpgsqlCheck
